import Mathlib

/-!
Shallow embedding of `quick_validate.py`: a validator for a skill package's
`SKILL.md` front matter, together with its path-resolution helper.

Modelling choices:
* Paths are POSIX path strings; `Path.is_absolute` is modelled as having a
  leading slash, and the pathlib `/` join operator as inserting a slash.
* The filesystem is a partial map from file paths to file contents; a file
  exists exactly when the map is defined at its path.
* The external PyYAML library is modelled by parameterising the validator
  over an arbitrary loader `String → Except String Yaml`; the concrete
  loader `yamlLoadModel` below mirrors `yaml.safe_load` on the one-level
  scalar mappings used in concrete examples.
* A Python exception escaping `validate_skill` is modelled by the
  `Except.error` constructor of the validator's result type; the ordinary
  `(bool, str)` returns of the Python function are the `Except.ok` values.
-/

/-- Python values that `yaml.safe_load` can return, as far as this validator
inspects them: strings, integers, booleans, `None`, lists and dictionaries.
Dictionary keys are arbitrary values, as in Python.  Floats are omitted;
nothing in the validator distinguishes them from the other non-string
scalars. -/
inductive Yaml where
  | ynull : Yaml
  | ybool : Bool → Yaml
  | yint : Int → Yaml
  | ystr : String → Yaml
  | ylist : List Yaml → Yaml
  | ydict : List (Yaml × Yaml) → Yaml

/-- `type(v).__name__` for the modelled Python values. -/
def pyTypeName : Yaml → String
  | Yaml.ynull => "NoneType"
  | Yaml.ybool _ => "bool"
  | Yaml.yint _ => "int"
  | Yaml.ystr _ => "str"
  | Yaml.ylist _ => "list"
  | Yaml.ydict _ => "dict"

/-- The whitespace characters removed by Python's `str.strip()` (ASCII part;
the inputs of this development are ASCII). -/
def isPySpace (c : Char) : Bool :=
  c == ' ' || c == '\t' || c == '\n' || c == '\r' || c == '\x0b' || c == '\x0c'

/-- Python `s.strip()`: drop leading and trailing whitespace. -/
def pyStrip (s : String) : String :=
  String.mk (((s.data.dropWhile isPySpace).reverse.dropWhile isPySpace).reverse)

/-- Python `s.startswith(pre)`. -/
def pyStartsWith (s pre : String) : Bool :=
  pre.data.isPrefixOf s.data

/-- One character of the regex character class `[a-z0-9-]`. -/
def isNameChar (c : Char) : Bool :=
  c.isLower || c.isDigit || c == '-'

/-- Python `'--' in name`: some occurrence of two adjacent hyphens. -/
def hasDoubleHyphen : List Char → Bool
  | [] => false
  | c :: rest => (c == '-' && rest.head? == some '-') || hasDoubleHyphen rest

/-- `name.startswith('-') or name.endswith('-') or '--' in name`. -/
def hyphenIssue (t : String) : Bool :=
  t.data.head? == some '-' || t.data.getLast? == some '-' ||
    hasDoubleHyphen t.data

/-- The set literal `ALLOWED_PROPERTIES` of the source, as a list in the
order written there. -/
def ALLOWED_PROPERTIES : List String :=
  ["name", "description", "license", "allowed-tools", "metadata"]

/-- Membership of a dictionary key in `ALLOWED_PROPERTIES`; a non-string key
is never equal to any of the allowed (string) properties. -/
def isAllowedKey : Yaml → Bool
  | Yaml.ystr s => ALLOWED_PROPERTIES.contains s
  | _ => false

/-- `set(frontmatter.keys()) - ALLOWED_PROPERTIES`, as the sublist of keys
that are not allowed (the dictionary of a parse has pairwise distinct keys,
so no deduplication is lost). -/
def unexpectedKeys (fm : List (Yaml × Yaml)) : List Yaml :=
  (fm.map Prod.fst).filter (fun k => !(isAllowedKey k))

/-- Code-point lexicographic comparison of character lists, the order Python
uses to compare strings. -/
def charListLe : List Char → List Char → Bool
  | [], _ => true
  | _ :: _, [] => false
  | a :: as, b :: bs => if a = b then charListLe as bs else decide (a < b)

/-- Python string comparison `a <= b`. -/
def strLeP (a b : String) : Prop :=
  charListLe a.data b.data = true

instance strLeP.instDecidableRel : DecidableRel strLeP :=
  fun a b => instDecidableEqBool (charListLe a.data b.data) true

/-- Python `sorted` on strings: ascending code-point lexicographic order. -/
def sortStrings (l : List String) : List String :=
  List.insertionSort strLeP l

/-- Python `sep.join(ss)`. -/
def joinSep (sep : String) : List String → String
  | [] => ""
  | [x] => x
  | x :: y :: rest => x ++ sep ++ joinSep sep (y :: rest)

/-- The strings among a key list, in order. -/
def strKeysOf : List Yaml → Option (List String)
  | [] => some []
  | Yaml.ystr s :: rest => (strKeysOf rest).map (fun ss => s :: ss)
  | _ => none

/-- `', '.join(sorted(keys))` as executed by Python on a set of dictionary
keys: when every key is a string the sorted keys are joined; when some key
is not a string, `sorted` (on keys of mixed types) or `str.join` (on any
non-string item) raises `TypeError`, modelled by the `error` case with a
fixed message standing for the uncaught exception. -/
def pyJoinSortedKeys (keys : List Yaml) : Except String String :=
  match strKeysOf keys with
  | some ss => Except.ok (joinSep ", " (sortStrings ss))
  | none => Except.error "TypeError: sequence item: expected str instance"

/-- Last-binding lookup of a string key in the dictionary, mirroring Python
dictionary indexing (`frontmatter.get(k)`); a non-string key never equals
the string `k`. -/
def lookupLast (fm : List (Yaml × Yaml)) (k : String) : Option Yaml :=
  fm.foldl
    (fun acc p =>
      match p.1 with
      | Yaml.ystr s => if s = k then some p.2 else acc
      | _ => acc)
    none

/-- Python `k in frontmatter` for a string `k`. -/
def hasKey (fm : List (Yaml × Yaml)) (k : String) : Bool :=
  (lookupLast fm k).isSome

/-- Python `frontmatter.get(k, '')` for a string `k`. -/
def pyGetD (fm : List (Yaml × Yaml)) (k : String) : Yaml :=
  (lookupLast fm k).getD (Yaml.ystr "")

/-- The `name` validation block of `validate_skill` (source lines 86-100):
`some (False, msg)` is an early return, `none` means the block falls
through to the description checks. -/
def checkName (v : Yaml) : Option (Bool × String) :=
  match v with
  | Yaml.ystr s =>
    let name := pyStrip s
    if name.data.isEmpty then none
    else if !(name.data.all isNameChar) then
      some (false, "Name \x27" ++ name ++
        "\x27 should be hyphen-case (lowercase letters, digits, and hyphens only)")
    else if hyphenIssue name then
      some (false, "Name \x27" ++ name ++
        "\x27 cannot start/end with hyphen or contain consecutive hyphens")
    else if name.data.length > 64 then
      some (false, "Name is too long (" ++ Nat.repr name.data.length ++
        " characters). Maximum is 64 characters.")
    else none
  | v => some (false, "Name must be a string, got " ++ pyTypeName v)

/-- The `description` validation block of `validate_skill` (source lines
102-113). -/
def checkDescription (v : Yaml) : Option (Bool × String) :=
  match v with
  | Yaml.ystr s =>
    let description := pyStrip s
    if description.data.isEmpty then none
    else if description.data.contains '<' || description.data.contains '>' then
      some (false, "Description cannot contain angle brackets (< or >)")
    else if description.data.length > 1024 then
      some (false, "Description is too long (" ++ Nat.repr description.data.length ++
        " characters). Maximum is 1024 characters.")
    else none
  | v => some (false, "Description must be a string, got " ++ pyTypeName v)

/-- The part of `validate_skill` that runs on the parsed front-matter
dictionary (source lines 70-115): unexpected keys, presence of `name` and
`description`, then the two field-validation blocks. -/
def checkDict (fm : List (Yaml × Yaml)) : Except String (Bool × String) :=
  if !(unexpectedKeys fm).isEmpty then
    match pyJoinSortedKeys (unexpectedKeys fm) with
    | Except.ok joined =>
      Except.ok (false, "Unexpected key(s) in SKILL.md frontmatter: " ++ joined ++
        ". Allowed properties are: " ++
        joinSep ", " (sortStrings ALLOWED_PROPERTIES))
    | Except.error e => Except.error e
  else if !(hasKey fm "name") then
    Except.ok (false, "Missing \x27name\x27 in frontmatter")
  else if !(hasKey fm "description") then
    Except.ok (false, "Missing \x27description\x27 in frontmatter")
  else
    match checkName (pyGetD fm "name") with
    | some r => Except.ok r
    | none =>
      match checkDescription (pyGetD fm "description") with
      | some r => Except.ok r
      | none => Except.ok (true, "Skill is valid!")

/-- The non-greedy search of `re.match(r'^---\n(.*?)\n---', content,
re.DOTALL)` after the opening marker: return the shortest prefix that is
followed by the four characters newline-dash-dash-dash, or `none` when no
such occurrence exists. -/
def findSplit : List Char → Option (List Char)
  | [] => none
  | c :: rest =>
    if List.isPrefixOf ['\n', '-', '-', '-'] (c :: rest) then some []
    else (findSplit rest).map (fun m => c :: m)

/-- Front-matter extraction (source lines 56-60): the regex
`^---\n(.*?)\n---` anchored at the start of the content, group 1. -/
def extractFrontmatter (content : String) : Option String :=
  if pyStartsWith content "---\n" then
    (findSplit (content.data.drop 4)).map String.mk
  else none

/-- `SKILLS_BASE_PATH` of the source. -/
def SKILLS_BASE_PATH : String := "/home/ubuntu/skills"

/-- `resolve_skill_path`: an absolute path is returned unchanged, anything
else is joined under `SKILLS_BASE_PATH`.  Purely syntactic, no filesystem
access. -/
def resolve_skill_path (s : String) : String :=
  if pyStartsWith s "/" then s else SKILLS_BASE_PATH ++ "/" ++ s

/-- `validate_skill`, parameterised over the filesystem `fs` and the YAML
loader `yamlLoad` (the external `yaml.safe_load`, whose exceptions of class
`YAMLError` are the `error` case of its result). -/
def validate_skill (fs : String → Option String)
    (yamlLoad : String → Except String Yaml) (input : String) :
    Except String (Bool × String) :=
  match fs (resolve_skill_path input ++ "/SKILL.md") with
  | none => Except.ok (false, "SKILL.md not found")
  | some content =>
    if pyStartsWith content "---" then
      match extractFrontmatter content with
      | none => Except.ok (false, "Invalid frontmatter format")
      | some fmText =>
        match yamlLoad fmText with
        | Except.error e =>
          Except.ok (false, "Invalid YAML in frontmatter: " ++ e)
        | Except.ok y =>
          match y with
          | Yaml.ydict fm => checkDict fm
          | _ => Except.ok (false, "Frontmatter must be a YAML dictionary")
    else Except.ok (false, "No YAML frontmatter found")

/-- Numeric value of a digit string. -/
def digitsVal (l : List Char) : Nat :=
  l.foldl (fun n c => 10 * n + (c.toNat - 48)) 0

/-- Model of `yaml.safe_load`'s resolution of a plain scalar, restricted to
what the concrete examples need: a digit string becomes an integer, any
other scalar stays a string. -/
def parseScalar (s : String) : Yaml :=
  if !(s.data.isEmpty) && s.data.all Char.isDigit then Yaml.yint (digitsVal s.data)
  else Yaml.ystr s

/-- Split a line at the first occurrence of colon-space, the key/value
separator of the modelled scalar mapping entries. -/
def splitColonSpace : List Char → Option (List Char × List Char)
  | [] => none
  | c :: rest =>
    if List.isPrefixOf [':', ' '] (c :: rest) then some ([], rest.drop 1)
    else (splitColonSpace rest).map (fun p => (c :: p.1, p.2))

/-- Model of parsing one `key: value` line; a line not of that shape is a
parse error, as it would be for the bracket line used in the examples. -/
def parseLineModel (line : String) : Except String (Yaml × Yaml) :=
  match splitColonSpace line.data with
  | some (k, v) => Except.ok (parseScalar (String.mk k), Yaml.ystr (String.mk v))
  | none => Except.error ("could not parse line: " ++ line)

/-- Parse every line of a block. -/
def yamlLinesModel : List String → Except String (List (Yaml × Yaml))
  | [] => Except.ok []
  | line :: rest =>
    match parseLineModel line, yamlLinesModel rest with
    | Except.ok e, Except.ok es => Except.ok (e :: es)
    | Except.error msg, _ => Except.error msg
    | _, Except.error msg => Except.error msg

/-- Split a character list at every newline, as Python `text.split('\\n')`
does. -/
def splitLines : List Char → List (List Char)
  | [] => [[]]
  | c :: rest =>
    if c = '\n' then [] :: splitLines rest
    else
      match splitLines rest with
      | [] => [[c]]
      | x :: xs => (c :: x) :: xs

/-- Model of the external `yaml.safe_load` on the restricted inputs used in
the concrete examples: one scalar `key: value` mapping entry per nonblank
line, and `None` for a blank block (matching `yaml.safe_load('')`). -/
def yamlLoadModel (text : String) : Except String Yaml :=
  match ((splitLines text.data).map String.mk).filter (fun l => !(l.isEmpty)) with
  | [] => Except.ok Yaml.ynull
  | lines => (yamlLinesModel lines).map Yaml.ydict

/-- A filesystem holding a single skill named `sk` whose `SKILL.md` has the
given content. -/
def fsWith (content : String) : String → Option String :=
  fun p => if p = "/home/ubuntu/skills/sk/SKILL.md" then some content else none

/-- Whether every dictionary key is a string. -/
def allKeysStrings (fm : List (Yaml × Yaml)) : Bool :=
  (fm.map Prod.fst).all (fun k => match k with | Yaml.ystr _ => true | _ => false)

/-- The strings among the dictionary keys, in order. -/
def keyStrings (fm : List (Yaml × Yaml)) : List String :=
  (fm.map Prod.fst).filterMap
    (fun k => match k with | Yaml.ystr s => some s | _ => none)

/-- The string keys outside the allowed set. -/
def unexpectedKeyStrings (fm : List (Yaml × Yaml)) : List String :=
  (keyStrings fm).filter (fun s => !(ALLOWED_PROPERTIES.contains s))

/-- A trimmed `name` that passes every format check of the name block:
character class, hyphen placement, and length. -/
def goodNameB (t : String) : Bool :=
  t.data.all isNameChar && !(hyphenIssue t) && t.data.length ≤ 64

/-- A trimmed `description` that passes both checks of the description
block: no angle brackets and length. -/
def goodDescB (t : String) : Bool :=
  !(t.data.contains '<' || t.data.contains '>') && t.data.length ≤ 1024

/-- A `name` value on which the name block falls through: a string that is
empty after stripping or whose stripped form passes every check. -/
def nameValueOK (v : Yaml) : Bool :=
  match v with
  | Yaml.ystr s => (pyStrip s).data.isEmpty || goodNameB (pyStrip s)
  | _ => false

/-- A `description` value on which the description block falls through. -/
def descValueOK (v : Yaml) : Bool :=
  match v with
  | Yaml.ystr s => (pyStrip s).data.isEmpty || goodDescB (pyStrip s)
  | _ => false

/-- Whether a run of the modelled Python function returned (rather than
raised). -/
def exceptIsOk : Except String (Bool × String) → Bool
  | Except.ok _ => true
  | Except.error _ => false

/-! Infrastructure lemmas: the comparison used by the sort is total and
transitive, and appended messages are distinguished by their head
character. -/

theorem charListLe_total : ∀ l1 l2 : List Char,
    charListLe l1 l2 = true ∨ charListLe l2 l1 = true := by
  intro l1
  induction l1 with
  | nil => intro l2; left; rfl
  | cons a as ih =>
    intro l2
    cases l2 with
    | nil => right; rfl
    | cons b bs =>
      by_cases hab : a = b
      · subst hab
        simp only [charListLe, if_pos rfl]
        exact ih bs
      · rcases lt_or_gt_of_ne hab with h | h
        · left
          simp only [charListLe, if_neg hab]
          exact decide_eq_true h
        · right
          simp only [charListLe, if_neg (Ne.symm hab)]
          exact decide_eq_true h

theorem charListLe_trans : ∀ l1 l2 l3 : List Char, charListLe l1 l2 = true →
    charListLe l2 l3 = true → charListLe l1 l3 = true := by
  intro l1
  induction l1 with
  | nil => intros; rfl
  | cons a as ih =>
    intro l2 l3 h12 h23
    cases l2 with
    | nil => exact absurd h12 (by simp [charListLe])
    | cons b bs =>
      cases l3 with
      | nil => exact absurd h23 (by simp [charListLe])
      | cons c cs =>
        simp only [charListLe] at h12 h23 ⊢
        by_cases hab : a = b
        · subst hab
          rw [if_pos rfl] at h12
          by_cases hac : a = c
          · subst hac
            rw [if_pos rfl] at h23 ⊢
            exact ih bs cs h12 h23
          · rw [if_neg hac] at h23 ⊢
            exact h23
        · rw [if_neg hab] at h12
          have hab2 : a < b := of_decide_eq_true h12
          by_cases hbc : b = c
          · subst hbc
            rw [if_neg (ne_of_lt hab2)]
            exact decide_eq_true hab2
          · rw [if_neg hbc] at h23
            have hbc2 : b < c := of_decide_eq_true h23
            have hac2 : a < c := lt_trans hab2 hbc2
            rw [if_neg (ne_of_lt hac2)]
            exact decide_eq_true hac2

instance strLeP.instIsTotal : IsTotal String strLeP :=
  ⟨fun a b => charListLe_total a.data b.data⟩

instance strLeP.instIsTrans : IsTrans String strLeP :=
  ⟨fun a b c => charListLe_trans a.data b.data c.data⟩

theorem head?_append_of_head? {a b : List Char} {c : Char}
    (h : a.head? = some c) : (a ++ b).head? = some c := by
  cases a with
  | nil => exact absurd h (by simp)
  | cons x xs => simpa using h

theorem data_head?_append (a b : String) {c : Char}
    (h : a.data.head? = some c) : (a ++ b).data.head? = some c := by
  rw [String.data_append]
  exact head?_append_of_head? h

theorem ne_valid_of_head {s : String} {c : Char}
    (h : s.data.head? = some c) (hc : c ≠ 'S') : s ≠ "Skill is valid!" := by
  intro he
  subst he
  rw [show ("Skill is valid!" : String).data.head? = some 'S' from rfl] at h
  exact hc (Option.some.inj h).symm

theorem append2_ne_valid (a b : String) {c : Char}
    (h : a.data.head? = some c) (hc : c ≠ 'S') :
    a ++ b ≠ "Skill is valid!" :=
  ne_valid_of_head (data_head?_append a b h) hc

theorem append3_ne_valid (a b d : String) {c : Char}
    (h : a.data.head? = some c) (hc : c ≠ 'S') :
    a ++ b ++ d ≠ "Skill is valid!" :=
  ne_valid_of_head (data_head?_append (a ++ b) d (data_head?_append a b h)) hc

/-! Lemmas about the two field-validation blocks. -/

theorem checkName_some_fst (v : Yaml) (r : Bool × String)
    (h : checkName v = some r) : r.1 = false := by
  cases v with
  | ystr s =>
    simp only [checkName] at h
    split at h
    · exact Option.noConfusion h
    · split at h
      · cases h; rfl
      · split at h
        · cases h; rfl
        · split at h
          · cases h; rfl
          · exact Option.noConfusion h
  | ynull => cases h; rfl
  | ybool b => cases h; rfl
  | yint n => cases h; rfl
  | ylist l => cases h; rfl
  | ydict d => cases h; rfl

theorem checkName_some_ne_valid (v : Yaml) (r : Bool × String)
    (h : checkName v = some r) : r.2 ≠ "Skill is valid!" := by
  cases v with
  | ystr s =>
    simp only [checkName] at h
    split at h
    · exact Option.noConfusion h
    · split at h
      · cases h; exact append3_ne_valid _ _ _ rfl (by decide)
      · split at h
        · cases h; exact append3_ne_valid _ _ _ rfl (by decide)
        · split at h
          · cases h; exact append3_ne_valid _ _ _ rfl (by decide)
          · exact Option.noConfusion h
  | ynull => cases h; exact append2_ne_valid _ _ rfl (by decide)
  | ybool b => cases h; exact append2_ne_valid _ _ rfl (by decide)
  | yint n => cases h; exact append2_ne_valid _ _ rfl (by decide)
  | ylist l => cases h; exact append2_ne_valid _ _ rfl (by decide)
  | ydict d => cases h; exact append2_ne_valid _ _ rfl (by decide)

theorem checkDescription_some_fst (v : Yaml) (r : Bool × String)
    (h : checkDescription v = some r) : r.1 = false := by
  cases v with
  | ystr s =>
    simp only [checkDescription] at h
    split at h
    · exact Option.noConfusion h
    · split at h
      · cases h; rfl
      · split at h
        · cases h; rfl
        · exact Option.noConfusion h
  | ynull => cases h; rfl
  | ybool b => cases h; rfl
  | yint n => cases h; rfl
  | ylist l => cases h; rfl
  | ydict d => cases h; rfl

theorem checkDescription_some_ne_valid (v : Yaml) (r : Bool × String)
    (h : checkDescription v = some r) : r.2 ≠ "Skill is valid!" := by
  cases v with
  | ystr s =>
    simp only [checkDescription] at h
    split at h
    · exact Option.noConfusion h
    · split at h
      · cases h; decide
      · split at h
        · cases h; exact append3_ne_valid _ _ _ rfl (by decide)
        · exact Option.noConfusion h
  | ynull => cases h; exact append2_ne_valid _ _ rfl (by decide)
  | ybool b => cases h; exact append2_ne_valid _ _ rfl (by decide)
  | yint n => cases h; exact append2_ne_valid _ _ rfl (by decide)
  | ylist l => cases h; exact append2_ne_valid _ _ rfl (by decide)
  | ydict d => cases h; exact append2_ne_valid _ _ rfl (by decide)

theorem checkName_none_iff (s : String) (h : (pyStrip s).data.isEmpty = false) :
    checkName (Yaml.ystr s) = none ↔ goodNameB (pyStrip s) = true := by
  simp only [checkName, goodNameB, h, Bool.false_eq_true, if_false]
  by_cases h1 : (pyStrip s).data.all isNameChar
  · by_cases h2 : hyphenIssue (pyStrip s)
    · simp [h1, h2]
    · by_cases h3 : (pyStrip s).data.length > 64
      · simp [h1, h2, h3, Nat.not_le.mpr h3]
      · simp [h1, h2, h3, Nat.not_lt.mp h3]
  · simp [h1]

theorem checkName_empty (s : String) (h : (pyStrip s).data.isEmpty = true) :
    checkName (Yaml.ystr s) = none := by
  simp [checkName, h]

theorem checkDescription_none_iff (s : String)
    (h : (pyStrip s).data.isEmpty = false) :
    checkDescription (Yaml.ystr s) = none ↔ goodDescB (pyStrip s) = true := by
  simp only [checkDescription, goodDescB, h, Bool.false_eq_true, if_false]
  by_cases h1 : ('<' ∈ (pyStrip s).data ∨ '>' ∈ (pyStrip s).data)
  · rcases h1 with h1 | h1 <;> simp [h1]
  · rw [not_or] at h1
    by_cases h2 : 1024 < (pyStrip s).length
    · simp [h1.1, h1.2, h2, Nat.not_le.mpr h2]
    · simp [h1.1, h1.2, h2, Nat.not_lt.mp h2]

theorem checkDescription_empty (s : String)
    (h : (pyStrip s).data.isEmpty = true) :
    checkDescription (Yaml.ystr s) = none := by
  simp [checkDescription, h]

theorem nameValueOK_iff (v : Yaml) :
    nameValueOK v = true ↔ checkName v = none := by
  cases v with
  | ystr s =>
    cases he : (pyStrip s).data.isEmpty with
    | true => simp [nameValueOK, he, checkName_empty s he]
    | false => simp [nameValueOK, he, checkName_none_iff s he]
  | ynull => simp [nameValueOK, checkName]
  | ybool b => simp [nameValueOK, checkName]
  | yint n => simp [nameValueOK, checkName]
  | ylist l => simp [nameValueOK, checkName]
  | ydict d => simp [nameValueOK, checkName]

theorem descValueOK_iff (v : Yaml) :
    descValueOK v = true ↔ checkDescription v = none := by
  cases v with
  | ystr s =>
    cases he : (pyStrip s).data.isEmpty with
    | true => simp [descValueOK, he, checkDescription_empty s he]
    | false => simp [descValueOK, he, checkDescription_none_iff s he]
  | ynull => simp [descValueOK, checkDescription]
  | ybool b => simp [descValueOK, checkDescription]
  | yint n => simp [descValueOK, checkDescription]
  | ylist l => simp [descValueOK, checkDescription]
  | ydict d => simp [descValueOK, checkDescription]

theorem append4_ne_valid (a b d e : String) {c : Char}
    (h : a.data.head? = some c) (hc : c ≠ 'S') :
    a ++ b ++ d ++ e ≠ "Skill is valid!" :=
  ne_valid_of_head
    (data_head?_append _ _ (data_head?_append _ _ (data_head?_append a b h))) hc

/-! Lemmas about the dictionary-level part of the validator. -/

theorem checkDict_valid_iff (fm : List (Yaml × Yaml)) (m : String) :
    checkDict fm = Except.ok (true, m) ↔
      ((unexpectedKeys fm).isEmpty = true ∧ hasKey fm "name" = true ∧
        hasKey fm "description" = true ∧
        checkName (pyGetD fm "name") = none ∧
        checkDescription (pyGetD fm "description") = none ∧
        m = "Skill is valid!") := by
  by_cases he : (unexpectedKeys fm).isEmpty
  · by_cases hn : hasKey fm "name"
    · by_cases hd : hasKey fm "description"
      · cases hcn : checkName (pyGetD fm "name") with
        | none =>
          cases hcd : checkDescription (pyGetD fm "description") with
          | none => simp [checkDict, he, hn, hd, hcn, hcd, eq_comm]
          | some r =>
            obtain ⟨rb, rm⟩ := r
            have hrb : rb = false := checkDescription_some_fst _ _ hcd
            subst hrb
            simp [checkDict, he, hn, hd, hcn, hcd]
        | some r =>
          obtain ⟨rb, rm⟩ := r
          have hrb : rb = false := checkName_some_fst _ _ hcn
          subst hrb
          simp [checkDict, he, hn, hd, hcn]
      · simp [checkDict, he, hn, hd]
    · simp [checkDict, he, hn]
  · cases hj : pyJoinSortedKeys (unexpectedKeys fm) with
    | ok joined => simp [checkDict, he, hj]
    | error e => simp [checkDict, he, hj]

theorem checkDict_ok_ne_valid (fm : List (Yaml × Yaml)) (m : String)
    (h : checkDict fm = Except.ok (false, m)) : m ≠ "Skill is valid!" := by
  by_cases he : (unexpectedKeys fm).isEmpty
  · by_cases hn : hasKey fm "name"
    · by_cases hd : hasKey fm "description"
      · cases hcn : checkName (pyGetD fm "name") with
        | none =>
          cases hcd : checkDescription (pyGetD fm "description") with
          | none => simp [checkDict, he, hn, hd, hcn, hcd] at h
          | some r =>
            simp [checkDict, he, hn, hd, hcn, hcd] at h
            rw [h] at hcd
            exact checkDescription_some_ne_valid _ _ hcd
        | some r =>
          simp [checkDict, he, hn, hd, hcn] at h
          rw [h] at hcn
          exact checkName_some_ne_valid _ _ hcn
      · simp [checkDict, he, hn, hd] at h
        rw [← h]
        decide
    · simp [checkDict, he, hn] at h
      rw [← h]
      decide
  · cases hj : pyJoinSortedKeys (unexpectedKeys fm) with
    | ok joined =>
      simp [checkDict, he, hj] at h
      rw [← h]
      exact append4_ne_valid _ _ _ _ rfl (by decide)
    | error e => simp [checkDict, he, hj] at h

/-- C10: the boolean returned by `validate_skill` is `true` exactly when the
accompanying message is the success message "Skill is valid!": every failing
return carries a message different from the success message, so the success
message uniquely identifies a successful validation. -/
theorem claim_C10 (fs : String → Option String)
    (yl : String → Except String Yaml) (input : String) (b : Bool)
    (m : String) (h : validate_skill fs yl input = Except.ok (b, m)) :
    b = true ↔ m = "Skill is valid!" := by
  unfold validate_skill at h
  split at h
  · simp only [Except.ok.injEq, Prod.mk.injEq] at h
    obtain ⟨hb, hm⟩ := h
    subst hb
    subst hm
    exact iff_of_false (by decide) (by decide)
  · split at h
    · split at h
      · simp only [Except.ok.injEq, Prod.mk.injEq] at h
        obtain ⟨hb, hm⟩ := h
        subst hb
        subst hm
        exact iff_of_false (by decide) (by decide)
      · split at h
        · simp only [Except.ok.injEq, Prod.mk.injEq] at h
          obtain ⟨hb, hm⟩ := h
          subst hb
          subst hm
          exact iff_of_false (by decide) (append2_ne_valid _ _ rfl (by decide))
        · split at h
          · cases b with
            | true =>
              exact iff_of_true rfl ((checkDict_valid_iff _ m).mp h).2.2.2.2.2
            | false =>
              exact iff_of_false (by decide) (checkDict_ok_ne_valid _ m h)
          · simp only [Except.ok.injEq, Prod.mk.injEq] at h
            obtain ⟨hb, hm⟩ := h
            subst hb
            subst hm
            exact iff_of_false (by decide) (by decide)
    · simp only [Except.ok.injEq, Prod.mk.injEq] at h
      obtain ⟨hb, hm⟩ := h
      subst hb
      subst hm
      exact iff_of_false (by decide) (by decide)

/-! Characterisation of the front-matter extraction. -/

theorem findSplit_isSome_iff (l : List Char) :
    (findSplit l).isSome = true ↔
      ∃ a b : List Char, l = a ++ '\n' :: '-' :: '-' :: '-' :: b := by
  induction l with
  | nil =>
    simp only [findSplit, Option.isSome_none, Bool.false_eq_true, false_iff]
    rintro ⟨a, b, hab⟩
    exact List.noConfusion (List.append_eq_nil.mp hab.symm).2
  | cons c rest ih =>
    by_cases hp : List.isPrefixOf ['\n', '-', '-', '-'] (c :: rest)
    · simp only [findSplit, if_pos hp, Option.isSome_some, true_iff]
      obtain ⟨t, ht⟩ := List.isPrefixOf_iff_prefix.mp hp
      exact ⟨[], t, by simpa using ht.symm⟩
    · simp only [findSplit, if_neg hp, Option.isSome_map']
      rw [ih]
      constructor
      · rintro ⟨a, b, hab⟩
        exact ⟨c :: a, b, by rw [hab, List.cons_append]⟩
      · rintro ⟨a, b, hab⟩
        cases a with
        | nil =>
          exfalso
          apply hp
          rw [List.isPrefixOf_iff_prefix]
          exact ⟨b, by simpa using hab.symm⟩
        | cons x xs =>
          rw [List.cons_append] at hab
          injection hab with h1 h2
          exact ⟨xs, b, h2⟩

theorem findSplit_eq_some (l m : List Char) (h : findSplit l = some m) :
    ∃ b, l = m ++ '\n' :: '-' :: '-' :: '-' :: b := by
  induction l generalizing m with
  | nil => exact Option.noConfusion h
  | cons c rest ih =>
    by_cases hp : List.isPrefixOf ['\n', '-', '-', '-'] (c :: rest)
    · simp only [findSplit, if_pos hp, Option.some.injEq] at h
      subst h
      obtain ⟨t, ht⟩ := List.isPrefixOf_iff_prefix.mp hp
      exact ⟨t, by simpa using ht.symm⟩
    · simp only [findSplit, if_neg hp] at h
      cases hf : findSplit rest with
      | none => rw [hf] at h; exact Option.noConfusion h
      | some mm =>
        rw [hf] at h
        simp only [Option.map_some', Option.some.injEq] at h
        obtain ⟨b, hb⟩ := ih mm hf
        exact ⟨b, by rw [← h, hb, List.cons_append]⟩

/-- C3 (amended): extraction succeeds exactly when the content starts with
`---` followed by a newline and, after those four characters, the four
characters newline-dash-dash-dash occur somewhere; equivalently, when the
content decomposes as `---`, newline, a (possibly empty) block, newline,
`---`, and an arbitrary remainder.  The closing marker is any line starting
with `---`, and a closing marker on the line immediately after the opening
one does not match, because the regex demands a newline between the opening
marker and the closing newline-dash-dash-dash. -/
theorem claim_C3 (content : String) :
    (extractFrontmatter content).isSome = true ↔
      ∃ middle rest : String,
        content = "---\n" ++ middle ++ "\n---" ++ rest := by
  unfold extractFrontmatter
  by_cases hp : pyStartsWith content "---\n"
  · rw [if_pos hp, Option.isSome_map', findSplit_isSome_iff]
    unfold pyStartsWith at hp
    obtain ⟨t, ht⟩ := List.isPrefixOf_iff_prefix.mp hp
    have hdrop : content.data.drop 4 = t := by
      rw [← ht]
      rfl
    constructor
    · rintro ⟨a, b, hab⟩
      refine ⟨String.mk a, String.mk b, ?_⟩
      apply String.ext
      rw [String.data_append, String.data_append, String.data_append]
      rw [← ht, ← hdrop, hab]
      simp [List.append_assoc]
    · rintro ⟨middle, rest, he⟩
      refine ⟨middle.data, rest.data, ?_⟩
      rw [he]
      rw [String.data_append, String.data_append, String.data_append]
      rw [List.append_assoc, List.append_assoc]
      rfl
  · rw [if_neg hp]
    refine iff_of_false (by simp) ?_
    rintro ⟨middle, rest, he⟩
    apply hp
    unfold pyStartsWith
    rw [List.isPrefixOf_iff_prefix, he]
    rw [String.data_append, String.data_append, String.data_append]
    exact ⟨middle.data ++ "\n---".data ++ rest.data, by
      simp [List.append_assoc]⟩

/-- C3 counterexample: for the content whose second line is the closing
marker `---` immediately after the opening line (here followed by a
`name: a` line), a later `---` line exists, yet extraction fails and
validation reports "Invalid frontmatter format" — refuting the claim that
extraction succeeds whenever a later `---` line exists, empty block
included. -/
theorem claim_C3_counterexample :
    (splitLines ("---\n---\nname: a\n").data).map String.mk =
      ["---", "---", "name: a", ""] ∧
    extractFrontmatter "---\n---\nname: a\n" = none ∧
    validate_skill (fsWith "---\n---\nname: a\n") yamlLoadModel "sk" =
      Except.ok (false, "Invalid frontmatter format") :=
  ⟨rfl, rfl, rfl⟩

/-- C1: a SKILL.md whose front matter holds exactly `name: my-skill` and
`description: does a thing` validates as (true, "Skill is valid!"); and in
general, whenever every dictionary-level check passes — no unexpected keys,
`name` and `description` present, and both field blocks fall through — the
result is (true, "Skill is valid!"). -/
theorem claim_C1 :
    validate_skill
        (fsWith "---\nname: my-skill\ndescription: does a thing\n---\n# Body")
        yamlLoadModel "sk" = Except.ok (true, "Skill is valid!") ∧
    (∀ fm : List (Yaml × Yaml), (unexpectedKeys fm).isEmpty = true →
      hasKey fm "name" = true → hasKey fm "description" = true →
      nameValueOK (pyGetD fm "name") = true →
      descValueOK (pyGetD fm "description") = true →
      checkDict fm = Except.ok (true, "Skill is valid!")) := by
  refine ⟨rfl, fun fm he hn hd hnv hdv => ?_⟩
  exact (checkDict_valid_iff fm _).mpr
    ⟨he, hn, hd, (nameValueOK_iff _).mp hnv, (descValueOK_iff _).mp hdv, rfl⟩

theorem claim_C1_witness :
    checkDict [(Yaml.ystr "name", Yaml.ystr "my-skill"),
      (Yaml.ystr "description", Yaml.ystr "does a thing")] =
      Except.ok (true, "Skill is valid!") :=
  claim_C1.2 _ rfl rfl rfl rfl rfl

/-- C6: `resolve_skill_path` returns an input denoting an absolute path
unchanged and joins any other input under the fixed base directory
`/home/ubuntu/skills`, purely syntactically: `"foo"` resolves to
`/home/ubuntu/skills/foo` and `/tmp/foo` is returned unchanged. -/
theorem claim_C6 :
    resolve_skill_path "foo" = "/home/ubuntu/skills/foo" ∧
    resolve_skill_path "/tmp/foo" = "/tmp/foo" ∧
    (∀ s : String,
      (pyStartsWith s "/" = true → resolve_skill_path s = s) ∧
      (pyStartsWith s "/" = false →
        resolve_skill_path s = SKILLS_BASE_PATH ++ "/" ++ s)) := by
  refine ⟨rfl, rfl, fun s => ⟨fun h => ?_, fun h => ?_⟩⟩
  · simp [resolve_skill_path, h]
  · simp [resolve_skill_path, h]

theorem claim_C6_witness :
    resolve_skill_path "/tmp/x" = "/tmp/x" ∧
    resolve_skill_path "my-skill" = SKILLS_BASE_PATH ++ "/" ++ "my-skill" :=
  ⟨(claim_C6.2.2 "/tmp/x").1 rfl, (claim_C6.2.2 "my-skill").2 rfl⟩

/-- C7: whenever the filesystem holds no file at `<resolved>/SKILL.md`,
`validate_skill` returns (false, "SKILL.md not found"), whatever the YAML
loader and the rest of the filesystem contain. -/
theorem claim_C7 (fs : String → Option String)
    (yl : String → Except String Yaml) (input : String)
    (h : fs (resolve_skill_path input ++ "/SKILL.md") = none) :
    validate_skill fs yl input = Except.ok (false, "SKILL.md not found") := by
  unfold validate_skill
  rw [h]

theorem claim_C7_witness :
    validate_skill (fun _ => none) yamlLoadModel "foo" =
      Except.ok (false, "SKILL.md not found") :=
  claim_C7 (fun _ => none) yamlLoadModel "foo" rfl

/-- C8: the checks run in the source order and short-circuit on the first
failure.  Each conjunct exhibits an input failing one check while a later
check would also fail, and the returned message is the earlier check's:
existence before everything; leading-marker before extraction; extraction
before YAML parsing; YAML parsing and the mapping check before the key
checks; unexpected keys before missing `name` (the claim's example);
missing `name` before missing `description`; missing `description` before
the name format checks; the name block before the description block. -/
theorem claim_C8 :
    validate_skill (fun _ => none) yamlLoadModel "skill-a" =
      Except.ok (false, "SKILL.md not found") ∧
    validate_skill (fsWith "garbage") yamlLoadModel "sk" =
      Except.ok (false, "No YAML frontmatter found") ∧
    validate_skill (fsWith "---\n---\nfoo: bar\n") yamlLoadModel "sk" =
      Except.ok (false, "Invalid frontmatter format") ∧
    validate_skill (fsWith "---\n[\n---\n") yamlLoadModel "sk" =
      Except.ok (false, "Invalid YAML in frontmatter: could not parse line: [") ∧
    validate_skill (fsWith "---\n\n---\n") yamlLoadModel "sk" =
      Except.ok (false, "Frontmatter must be a YAML dictionary") ∧
    validate_skill (fsWith "---\nfoo: bar\n---\n") yamlLoadModel "sk" =
      Except.ok (false, "Unexpected key(s) in SKILL.md frontmatter: foo. Allowed properties are: allowed-tools, description, license, metadata, name") ∧
    validate_skill (fsWith "---\nlicense: mit\n---\n") yamlLoadModel "sk" =
      Except.ok (false, "Missing \x27name\x27 in frontmatter") ∧
    validate_skill (fsWith "---\nname: BAD\n---\n") yamlLoadModel "sk" =
      Except.ok (false, "Missing \x27description\x27 in frontmatter") ∧
    validate_skill (fsWith "---\nname: BAD\ndescription: <x>\n---\n")
        yamlLoadModel "sk" =
      Except.ok (false,
        "Name \x27BAD\x27 should be hyphen-case (lowercase letters, digits, and hyphens only)") :=
  ⟨rfl, rfl, rfl, rfl, rfl, rfl, rfl, rfl, rfl⟩

/-- C2: validation of the `name` field.  (1) When the front matter binds
`name` to a string that is non-empty after stripping and the stripped name
fails the hyphen-case, hyphen-placement or length-64 check, validation can
never succeed.  (2) For a non-empty stripped name the block falls through
exactly when all three checks pass.  (3) A name of 65 `a` characters fails
with the length message citing 65.  (4) A name empty after stripping is
subject to none of the format checks.  (5) A non-string name fails with a
message naming the actual Python type. -/
theorem claim_C2 :
    (∀ (fm : List (Yaml × Yaml)) (s : String),
      lookupLast fm "name" = some (Yaml.ystr s) →
      (pyStrip s).data.isEmpty = false → goodNameB (pyStrip s) = false →
      ∀ m : String, checkDict fm ≠ Except.ok (true, m)) ∧
    (∀ s : String, (pyStrip s).data.isEmpty = false →
      (checkName (Yaml.ystr s) = none ↔ goodNameB (pyStrip s) = true)) ∧
    (checkName (Yaml.ystr (String.mk (List.replicate 65 'a'))) =
      some (false,
        "Name is too long (65 characters). Maximum is 64 characters.")) ∧
    (∀ s : String, (pyStrip s).data.isEmpty = true →
      checkName (Yaml.ystr s) = none) ∧
    (∀ v : Yaml, (∀ s : String, v ≠ Yaml.ystr s) →
      checkName v =
        some (false, "Name must be a string, got " ++ pyTypeName v)) := by
  refine ⟨?_, checkName_none_iff, by decide, checkName_empty, ?_⟩
  · intro fm s hl hne hbad m hc
    have h2 := (checkDict_valid_iff fm m).mp hc
    have hv : pyGetD fm "name" = Yaml.ystr s := by simp [pyGetD, hl]
    have hnone := h2.2.2.2.1
    rw [hv] at hnone
    have hgood := (checkName_none_iff s hne).mp hnone
    rw [hgood] at hbad
    exact Bool.noConfusion hbad
  · intro v hv
    cases v with
    | ystr s => exact absurd rfl (hv s)
    | ynull => rfl
    | ybool b => rfl
    | yint n => rfl
    | ylist l => rfl
    | ydict d => rfl

theorem claim_C2_witness :
    checkDict [(Yaml.ystr "name", Yaml.ystr "My_Skill"),
        (Yaml.ystr "description", Yaml.ystr "d")] ≠
      Except.ok (true, "Skill is valid!") ∧
    checkName (Yaml.ystr " ") = none ∧
    checkName (Yaml.yint 5) =
      some (false, "Name must be a string, got int") :=
  ⟨claim_C2.1 [(Yaml.ystr "name", Yaml.ystr "My_Skill"),
      (Yaml.ystr "description", Yaml.ystr "d")] "My_Skill" rfl rfl rfl
      "Skill is valid!",
   claim_C2.2.2.2.1 " " rfl,
   claim_C2.2.2.2.2 (Yaml.yint 5) (fun s h => Yaml.noConfusion h)⟩

/-- C5: validation of the `description` field.  (1) When the front matter
binds `description` to a string that is non-empty after stripping and the
stripped description contains an angle bracket or exceeds 1024 characters,
validation can never succeed.  (2) For a non-empty stripped description the
block falls through exactly when both checks pass.  (3) An angle bracket
produces the angle-bracket message.  (4) Without angle brackets, a length
above 1024 produces the length message reporting the actual length.
(5) A description empty after stripping is subject to neither check.
(6) A non-string description fails with a message naming the actual Python
type. -/
theorem claim_C5 :
    (∀ (fm : List (Yaml × Yaml)) (s : String),
      lookupLast fm "description" = some (Yaml.ystr s) →
      (pyStrip s).data.isEmpty = false → goodDescB (pyStrip s) = false →
      ∀ m : String, checkDict fm ≠ Except.ok (true, m)) ∧
    (∀ s : String, (pyStrip s).data.isEmpty = false →
      (checkDescription (Yaml.ystr s) = none ↔ goodDescB (pyStrip s) = true)) ∧
    (∀ s : String, (pyStrip s).data.isEmpty = false →
      ((pyStrip s).data.contains '<' || (pyStrip s).data.contains '>') = true →
      checkDescription (Yaml.ystr s) =
        some (false, "Description cannot contain angle brackets (< or >)")) ∧
    (∀ s : String, (pyStrip s).data.isEmpty = false →
      (pyStrip s).data.contains '<' = false →
      (pyStrip s).data.contains '>' = false →
      1024 < (pyStrip s).data.length →
      checkDescription (Yaml.ystr s) =
        some (false, "Description is too long (" ++
          Nat.repr (pyStrip s).data.length ++
          " characters). Maximum is 1024 characters.")) ∧
    (∀ s : String, (pyStrip s).data.isEmpty = true →
      checkDescription (Yaml.ystr s) = none) ∧
    (∀ v : Yaml, (∀ s : String, v ≠ Yaml.ystr s) →
      checkDescription v =
        some (false, "Description must be a string, got " ++ pyTypeName v)) := by
  refine ⟨?_, checkDescription_none_iff, ?_, ?_, checkDescription_empty, ?_⟩
  · intro fm s hl hne hbad m hc
    have h2 := (checkDict_valid_iff fm m).mp hc
    have hv : pyGetD fm "description" = Yaml.ystr s := by simp [pyGetD, hl]
    have hnone := h2.2.2.2.2.1
    rw [hv] at hnone
    have hgood := (checkDescription_none_iff s hne).mp hnone
    rw [hgood] at hbad
    exact Bool.noConfusion hbad
  · intro s hne hin
    simp only [Bool.or_eq_true] at hin
    have hin2 : '<' ∈ (pyStrip s).data ∨ '>' ∈ (pyStrip s).data := by
      rcases hin with h | h
      · exact Or.inl (by simpa using h)
      · exact Or.inr (by simpa using h)
    rcases hin2 with h | h <;> simp [checkDescription, hne, h]
  · intro s hne h1 h2 hlt
    have hn1 : '<' ∉ (pyStrip s).data := by simpa using h1
    have hn2 : '>' ∉ (pyStrip s).data := by simpa using h2
    have hlt2 : 1024 < (pyStrip s).length := hlt
    simp [checkDescription, hne, hn1, hn2, hlt2]
  · intro v hv
    cases v with
    | ystr s => exact absurd rfl (hv s)
    | ynull => rfl
    | ybool b => rfl
    | yint n => rfl
    | ylist l => rfl
    | ydict d => rfl

theorem claim_C5_witness :
    checkDict [(Yaml.ystr "name", Yaml.ystr "ok"),
        (Yaml.ystr "description", Yaml.ystr "<script>")] ≠
      Except.ok (true, "Skill is valid!") ∧
    checkDescription (Yaml.ystr "<script>") =
      some (false, "Description cannot contain angle brackets (< or >)") ∧
    checkDescription (Yaml.ystr " ") = none ∧
    checkDescription Yaml.ynull =
      some (false, "Description must be a string, got NoneType") :=
  ⟨claim_C5.1 [(Yaml.ystr "name", Yaml.ystr "ok"),
      (Yaml.ystr "description", Yaml.ystr "<script>")] "<script>" rfl rfl rfl
      "Skill is valid!",
   claim_C5.2.2.1 "<script>" rfl rfl,
   claim_C5.2.2.2.2.1 " " rfl,
   claim_C5.2.2.2.2.2 Yaml.ynull (fun s h => Yaml.noConfusion h)⟩

/-- On a key list of strings only, the modelled join-of-sorted-keys never
raises: it extracts exactly the string keys. -/
theorem strKeysOf_filter (l : List Yaml)
    (h : l.all (fun k => match k with | Yaml.ystr _ => true | _ => false)
      = true) :
    strKeysOf (l.filter (fun k => !(isAllowedKey k))) =
      some ((l.filterMap
          (fun k => match k with | Yaml.ystr s => some s | _ => none)).filter
        (fun s => !(ALLOWED_PROPERTIES.contains s))) := by
  induction l with
  | nil => rfl
  | cons k rest ih =>
    simp only [List.all_cons, Bool.and_eq_true] at h
    cases k with
    | ystr s =>
      by_cases hc : s ∈ ALLOWED_PROPERTIES
      · simpa [isAllowedKey, hc] using ih h.2
      · simpa [isAllowedKey, hc, strKeysOf] using ih h.2
    | ynull => exact Bool.noConfusion h.1
    | ybool b => exact Bool.noConfusion h.1
    | yint n => exact Bool.noConfusion h.1
    | ylist m => exact Bool.noConfusion h.1
    | ydict d => exact Bool.noConfusion h.1

/-- C4 (amended): for a parsed mapping with pairwise-distinct keys, all of
them strings, that contains a key outside the allowed set, validation
fails with a message listing the offending keys in ascending string order
followed by the allowed set in ascending order (first conjunct; the sort
really is a sort: second conjunct); the claim's `foo: bar` example
produces exactly that message, mentioning `foo` (third conjunct).  The
restriction to string keys is forced by the counterexample: a non-string
offending key makes the message construction raise TypeError instead of
failing. -/
theorem claim_C4 :
    (∀ fm : List (Yaml × Yaml), allKeysStrings fm = true →
      (keyStrings fm).Nodup → (unexpectedKeys fm).isEmpty = false →
      checkDict fm = Except.ok (false,
        "Unexpected key(s) in SKILL.md frontmatter: " ++
          joinSep ", " (sortStrings (unexpectedKeyStrings fm)) ++
          ". Allowed properties are: " ++
          "allowed-tools, description, license, metadata, name")) ∧
    (∀ l : List String,
      List.Sorted strLeP (sortStrings l) ∧ (sortStrings l).Perm l) ∧
    (checkDict [(Yaml.ystr "foo", Yaml.ystr "bar"),
        (Yaml.ystr "name", Yaml.ystr "my-skill"),
        (Yaml.ystr "description", Yaml.ystr "does a thing")] =
      Except.ok (false,
        "Unexpected key(s) in SKILL.md frontmatter: foo. Allowed properties are: allowed-tools, description, license, metadata, name")) := by
  refine ⟨?_, fun l => ⟨List.sorted_insertionSort strLeP l,
    List.perm_insertionSort strLeP l⟩, rfl⟩
  intro fm hall hnd hne
  have hjoin : pyJoinSortedKeys (unexpectedKeys fm) =
      Except.ok (joinSep ", " (sortStrings (unexpectedKeyStrings fm))) := by
    unfold pyJoinSortedKeys
    rw [show strKeysOf (unexpectedKeys fm) = some (unexpectedKeyStrings fm)
      from strKeysOf_filter (fm.map Prod.fst) hall]
  simp only [checkDict, hne, Bool.not_false, hjoin]
  rfl

/-- C4 counterexample: a parsed mapping whose only key is the integer 1, a
key outside the allowed set, does not fail with a listing message as the
claim states: the modelled run raises TypeError (Python's
`', '.join(sorted(keys))` on a non-string item) and returns no pair at
all. -/
theorem claim_C4_counterexample :
    checkDict [(Yaml.yint 1, Yaml.ystr "a")] =
      Except.error "TypeError: sequence item: expected str instance" ∧
    exceptIsOk (checkDict [(Yaml.yint 1, Yaml.ystr "a")]) = false :=
  ⟨rfl, rfl⟩

theorem claim_C4_witness :
    checkDict [(Yaml.ystr "foo", Yaml.ystr "bar")] =
      Except.ok (false,
        "Unexpected key(s) in SKILL.md frontmatter: " ++
          joinSep ", " (sortStrings (unexpectedKeyStrings
            [(Yaml.ystr "foo", Yaml.ystr "bar")])) ++
          ". Allowed properties are: " ++
          "allowed-tools, description, license, metadata, name") :=
  claim_C4.1 [(Yaml.ystr "foo", Yaml.ystr "bar")] rfl (by decide) rfl

/-- C9: a failing input for the no-crash claim.  For a SKILL.md whose front
matter parses to the mapping with the single integer key 1 (PyYAML parses
`1: a` that way), the run reaches the unexpected-keys branch, where
Python's `', '.join(sorted(keys))` raises TypeError on the non-string key;
`validate_skill` therefore raises (modelled `Except.error`) instead of
returning a (bool, str) pair, contradicting totality. -/
theorem claim_C9 :
    validate_skill (fsWith "---\n1: a\n---\n") yamlLoadModel "sk" =
      Except.error "TypeError: sequence item: expected str instance" ∧
    exceptIsOk (validate_skill (fsWith "---\n1: a\n---\n") yamlLoadModel "sk")
      = false :=
  ⟨rfl, rfl⟩

theorem claim_C10_witness :
    (true = true ↔ "Skill is valid!" = "Skill is valid!") :=
  claim_C10
    (fsWith "---\nname: my-skill\ndescription: does a thing\n---\n# Body")
    yamlLoadModel "sk" true "Skill is valid!" rfl
